import Mathlib

/-!
Verification development for the local-agent backend supervisor
(Tauri sidecar manager written in Rust: `sidecar.rs`, `health.rs`,
`error_page.rs`, `lib.rs`).

Shallow embedding conventions:
* Pure string manipulation (`html_escape`, `generate_error_html`,
  `read_last_log_lines`) is translated to Lean functions on `String` /
  `List Char`.
* The process/IO effects (spawn outcomes, `try_wait` results, elapsed
  clocks, file reads) are passed in explicitly as oracles, and the code
  paths that take locks, sleep, or kill are reflected as event traces.
* Machine integers are `Nat` with explicit `% 2 ^ 64` where the source
  computes in `u64` (the backoff shift `1u64 << (attempts - 1)`).
-/

namespace LocalAgent

/-! ### HTML escaping (`error_page.rs`, `html_escape`)

The Rust source is a chain of `str::replace` calls, each replacing every
occurrence of one character by a replacement string, applied in the order
`&`, `<`, `>`, `"`.  `replaceChar` is that single-character `replace` on
`List Char`. -/

def replaceChar (c : Char) (r : List Char) : List Char → List Char
  | [] => []
  | x :: xs => if x = c then r ++ replaceChar c r xs else x :: replaceChar c r xs

def htmlEscapeL (l : List Char) : List Char :=
  replaceChar '\"' "&quot;".toList
    (replaceChar '>' "&gt;".toList
      (replaceChar '<' "&lt;".toList
        (replaceChar '&' "&amp;".toList l)))

def html_escape (s : String) : String :=
  String.mk (htmlEscapeL s.toList)

/-- Per-character escaping map; `htmlEscapeL` is proved equal to
`List.flatMap escChar`. -/
def escChar (c : Char) : List Char :=
  if c = '&' then "&amp;".toList
  else if c = '<' then "&lt;".toList
  else if c = '>' then "&gt;".toList
  else if c = '\"' then "&quot;".toList
  else [c]

/-! ### The error page template (`error_page.rs`, `generate_error_html`)

The Rust `format!` template is split at its two `{}` holes into a prefix,
a middle and a suffix; `\x7b`/`\x7d` denote the literal braces written
`\x7b\x7b`/`\x7d\x7d` in the Rust format string, and `\x27` the ASCII
apostrophe. -/

def errorPagePre : String :=
  "<!DOCTYPE html>\n<html>\n<head>\n<meta charset=\"utf-8\">\n<style>\n  * \x7b margin: 0; padding: 0; box-sizing: border-box; \x7d\n  body \x7b\n    background: #1a1a1a;\n    color: #e0e0e0;\n    font-family: -apple-system, BlinkMacSystemFont, \"Segoe UI\", sans-serif;\n    display: flex;\n    align-items: center;\n    justify-content: center;\n    min-height: 100vh;\n    padding: 2rem;\n  \x7d\n  .container \x7b\n    max-width: 640px;\n    width: 100%;\n  \x7d\n  h1 \x7b\n    color: #ff6b6b;\n    font-size: 1.4rem;\n    margin-bottom: 1rem;\n  \x7d\n  .message \x7b\n    color: #aaa;\n    margin-bottom: 1.5rem;\n    line-height: 1.5;\n  \x7d\n  .log-box \x7b\n    background: #111;\n    border: 1px solid #333;\n    border-radius: 6px;\n    padding: 1rem;\n    font-family: \"SF Mono\", \"Fira Code\", monospace;\n    font-size: 0.75rem;\n    line-height: 1.6;\n    white-space: pre-wrap;\n    word-break: break-all;\n    max-height: 300px;\n    overflow-y: auto;\n    margin-bottom: 1.5rem;\n    color: #999;\n  \x7d\n  button \x7b\n    background: #333;\n    color: #e0e0e0;\n    border: 1px solid #555;\n    border-radius: 6px;\n    padding: 0.6rem 1.5rem;\n    font-size: 0.9rem;\n    cursor: pointer;\n    transition: background 0.15s;\n  \x7d\n  button:hover \x7b\n    background: #444;\n  \x7d\n</style>\n</head>\n<body>\n  <div class=\"container\">\n    <h1>Backend failed to start</h1>\n    <p class=\"message\">"

def errorPageMid : String :=
  "</p>\n    <div class=\"log-box\">"

def errorPagePost : String :=
  "</div>\n    <button onclick=\"window.__TAURI__?.invoke(\x27restart_backend\x27)\">\n      Retry\n    </button>\n  </div>\n</body>\n</html>"

def noLogPlaceholder : String := "No log output available."

/-- The user-actionable control embedded in the page: the `onclick`
handler that invokes the `restart_backend` command. -/
def restartControl : String := "window.__TAURI__?.invoke(\x27restart_backend\x27)"

/-- `Vec::join("\n")` on strings. -/
def joinLines : List String → String
  | [] => ""
  | [l] => l
  | l :: ls => l ++ "\n" ++ joinLines ls

/-- The string placed in the log box: the escaped log lines joined by
newlines, or the placeholder when that joined string is empty
(`escaped_logs.is_empty()` in the source). -/
def logBoxContent (log_lines : List String) : String :=
  let escaped_logs := joinLines (log_lines.map html_escape)
  if escaped_logs.isEmpty then noLogPlaceholder else escaped_logs

def generate_error_html (message : String) (log_lines : List String) : String :=
  errorPagePre ++ html_escape message ++ errorPageMid ++
    logBoxContent log_lines ++ errorPagePost

/-! ### Substring machinery on `List Char` -/

def startsWithL : List Char → List Char → Bool
  | [], _ => true
  | _ :: _, [] => false
  | p :: ps, x :: xs => p = x && startsWithL ps xs

def containsSeq : List Char → List Char → Bool
  | p, [] => startsWithL p []
  | p, x :: xs => startsWithL p (x :: xs) || containsSeq p xs

/-- Every occurrence of `&` in the list begins one of the four entity
sequences `&amp;` `&lt;` `&gt;` `&quot;`. -/
def ampEscaped : List Char → Bool
  | [] => true
  | c :: t =>
    (if c = '&' then
      startsWithL "amp;".toList t || startsWithL "lt;".toList t ||
        startsWithL "gt;".toList t || startsWithL "quot;".toList t
     else true)
    && ampEscaped t

/-- No metacharacter of the inputs survives unescaped: the string holds no
`<`, no `>`, no `"`, and every `&` starts an entity. -/
def NoUnescaped (s : String) : Prop :=
  '<' ∉ s.toList ∧ '>' ∉ s.toList ∧ '\"' ∉ s.toList ∧ ampEscaped s.toList = true

/-! ### Event-trace model of the supervisor (`sidecar.rs`, `lib.rs`)

The stateful code is embedded as functions from explicit oracles (spawn
outcomes, `try_wait` results, elapsed clocks) to results plus a trace of
the observable actions: lock acquisition/release of the two mutexes (the
manager's child slot and the app state's manager slot), slot accesses,
spawn calls, kills, waits and sleeps. A mutex guard in the Rust source is
released when it goes out of scope, i.e. at function return, so the
matching `unlock` event is emitted at the end of the modelled scope. -/

inductive Ev
  | lockApp | unlockApp | lockChild | unlockChild
  | takeSlot | storeSlot | readSlot
  | spawnCall | killChild | waitChild | tryWaitChild
  | sleepMs (ms : Nat)
deriving DecidableEq

/-- Outcome of one `child.try_wait()` call: `Ok(Some(_))`, `Ok(None)`, or
`Err(_)`. -/
inductive TryWaitResult
  | exited | running | errWait
deriving DecidableEq

/-- Behaviour oracle for a stored child process: the result of the `i`-th
`try_wait` call in the shutdown loop, and the milliseconds elapsed since
the loop started when the `i`-th iteration checks the deadline. -/
structure ChildBeh where
  tryWaitAt : Nat → TryWaitResult
  elapsedAt : Nat → Nat

/-- The shutdown polling loop (`sidecar.rs` lines 131-149): `try_wait`;
on `Ok(Some(_))` return; on `Ok(None)` force-kill and blocking-wait if
more than 5 seconds elapsed, else sleep 100 ms and poll again; on `Err(_)`
return. `fuel` bounds the modelled number of iterations. -/
def shutdownLoop (beh : ChildBeh) : Nat → Nat → List Ev
  | _, 0 => []
  | k, fuel + 1 =>
    Ev.tryWaitChild ::
      match beh.tryWaitAt k with
      | .exited => []
      | .running =>
        if beh.elapsedAt k > 5000 then [Ev.killChild, Ev.waitChild]
        else Ev.sleepMs 100 :: shutdownLoop beh (k + 1) fuel
      | .errWait => []

/-- `SidecarManager::shutdown`: lock the child slot, `take()` it; if it
held a child, kill it and run the polling loop; the guard is released at
return. The slot is `None` afterwards on every path because `take()`
cleared it before the loop and nothing restores it. -/
def shutdown (slot : Option ChildBeh) (fuel : Nat) : Option ChildBeh × List Ev :=
  match slot with
  | none => (none, [Ev.lockChild, Ev.takeSlot, Ev.unlockChild])
  | some beh =>
    (none, Ev.lockChild :: Ev.takeSlot :: Ev.killChild ::
      (shutdownLoop beh 0 fuel ++ [Ev.unlockChild]))

def killCount (tr : List Ev) : Nat :=
  tr.countP (fun e => decide (e = Ev.killChild))

/-! ### Spawn with retry (`sidecar.rs`, `spawn_with_retry`) -/

structure RetryOutcome where
  result : Except String Unit
  events : List Ev

/-- `SidecarManager::spawn_with_retry`, parameterised by the outcome of
each `spawn` call. A successful `spawn` stores the child under the child
lock. On failure the attempt counter is incremented; once it reaches
`max_retries` an error embedding `max_retries` and the last spawn error is
returned with no further sleep; otherwise the loop sleeps
`Duration::from_secs(1u64 << (attempts - 1))` (the `u64` shift is modelled
as `Nat` modulo `2 ^ 64`, recorded in milliseconds) and retries. -/
def spawn_with_retry (spawnAt : Nat → Except String Unit) (maxRetries : Nat)
    (attempts : Nat) : RetryOutcome :=
  match spawnAt attempts with
  | .ok () => ⟨.ok (), [Ev.spawnCall, Ev.lockChild, Ev.storeSlot, Ev.unlockChild]⟩
  | .error e =>
    if h : attempts + 1 ≥ maxRetries then
      ⟨.error ("Backend failed to start after " ++ toString maxRetries ++
        " attempts: " ++ e), [Ev.spawnCall]⟩
    else
      let rest := spawn_with_retry spawnAt maxRetries (attempts + 1)
      ⟨rest.result,
        Ev.spawnCall ::
          Ev.sleepMs (1000 * ((1 <<< (attempts + 1 - 1)) % 2 ^ 64)) :: rest.events⟩
termination_by maxRetries - attempts
decreasing_by omega

def spawnCalls (tr : List Ev) : Nat :=
  tr.countP (fun e => decide (e = Ev.spawnCall))

/-- The backoff sleeps of a trace, in milliseconds, in order. -/
def sleepsOf (tr : List Ev) : List Nat :=
  tr.filterMap (fun e => match e with | Ev.sleepMs d => some d | _ => none)

/-! ### The restart command (`lib.rs`, `restart_backend`) -/

/-- A stored `SidecarManager`: its child slot behaviour, the outcome of
each `spawn` call it would make, and its `max_retries` (always 3 in the
source: `SidecarManager::new` hardcodes it). -/
structure MgrModel where
  childSlot : Option ChildBeh
  spawnAt : Nat → Except String Unit
  maxRetries : Nat

/-- `restart_backend` (`lib.rs` lines 21-51): first block locks the app
state and, if a manager is stored, runs `shutdown` while holding the app
lock; second block locks again and either runs `spawn_with_retry` (still
under the app lock) or returns the no-manager error without any spawn
attempt. Spawn and health-poll failures propagate unchanged; on success
the command returns "Backend restarted". Health polling and the UI
navigation happen outside both locks and contribute no lock/slot events
here. -/
def restart_backend (slot : Option MgrModel) (healthResult : Except String Unit)
    (shutFuel : Nat) : Except String String × List Ev :=
  match slot with
  | none =>
    (.error "No sidecar manager available",
      [Ev.lockApp, Ev.readSlot, Ev.unlockApp, Ev.lockApp, Ev.readSlot, Ev.unlockApp])
  | some m =>
    let block1 := Ev.lockApp :: Ev.readSlot ::
      ((shutdown m.childSlot shutFuel).2 ++ [Ev.unlockApp])
    let sp := spawn_with_retry m.spawnAt m.maxRetries 0
    let tr := block1 ++ (Ev.lockApp :: Ev.readSlot :: (sp.events ++ [Ev.unlockApp]))
    match sp.result with
    | .error e => (.error e, tr)
    | .ok () =>
      match healthResult with
      | .error e => (.error e, tr)
      | .ok () => (.ok "Backend restarted", tr)

/-! ### Lock-discipline scanners over traces -/

def isSleepEv : Ev → Bool
  | Ev.sleepMs _ => true
  | _ => false

/-- Scans a trace keeping the nesting depth of one lock; `true` when some
sleep event happens while the depth is positive. -/
def sleepWhileLockedAux (isLock isUnlock : Ev → Bool) : List Ev → Nat → Bool
  | [], _ => false
  | e :: t, d =>
    (isSleepEv e && d != 0) ||
      sleepWhileLockedAux isLock isUnlock t
        (cond (isLock e) (d + 1) (cond (isUnlock e) (d - 1) d))

def sleepWhileChildLocked (tr : List Ev) : Bool :=
  sleepWhileLockedAux (fun e => decide (e = Ev.lockChild))
    (fun e => decide (e = Ev.unlockChild)) tr 0

def sleepWhileAppLocked (tr : List Ev) : Bool :=
  sleepWhileLockedAux (fun e => decide (e = Ev.lockApp))
    (fun e => decide (e = Ev.unlockApp)) tr 0

/-- Scans a trace keeping the nesting depth of one lock; `true` when some
designated slot-access event happens while the lock is not held. -/
def accessUnlockedAux (isLock isUnlock isAccess : Ev → Bool) : List Ev → Nat → Bool
  | [], _ => false
  | e :: t, d =>
    (isAccess e && d == 0) ||
      accessUnlockedAux isLock isUnlock isAccess t
        (cond (isLock e) (d + 1) (cond (isUnlock e) (d - 1) d))

/-- A child-slot access (`take`/`store`) while the child lock is free. -/
def childAccessUnlocked (tr : List Ev) : Bool :=
  accessUnlockedAux (fun e => decide (e = Ev.lockChild))
    (fun e => decide (e = Ev.unlockChild))
    (fun e => decide (e = Ev.takeSlot) || decide (e = Ev.storeSlot)) tr 0

/-- A manager-slot access (read) while the app lock is free. -/
def appAccessUnlocked (tr : List Ev) : Bool :=
  accessUnlockedAux (fun e => decide (e = Ev.lockApp))
    (fun e => decide (e = Ev.unlockApp))
    (fun e => decide (e = Ev.readSlot)) tr 0

/-! ### Health poller (`health.rs`, `poll_health`)

The async loop is embedded with explicit oracles: `elapsed k` is the
milliseconds reported by `start.elapsed()` at the deadline check of the
`k`-th iteration, and `probe k` is the outcome of the `k`-th HTTP GET
(`Ok(resp)` with its status code, or a connection `Err`). The result also
carries the list of sleeps performed (each `interval_ms`, from
`tokio::time::sleep(interval)`); `none` means the `fuel` bound on modelled
iterations was exhausted while the loop was still polling. The URL and the
per-probe client sub-timeouts (2 s connect / 3 s total) only influence
which `ProbeResult` comes back and are absorbed by the oracle. -/

inductive ProbeResult
  | response (status : Nat)
  | connError

/-- `reqwest::StatusCode::is_success()`: status in `200..=299`. -/
def statusIsSuccess (s : Nat) : Bool := 200 ≤ s && s < 300

def probeSucceeds : ProbeResult → Bool
  | .response s => statusIsSuccess s
  | .connError => false

def timeoutMsg (timeout_ms : Nat) : String :=
  "Backend health check timed out after " ++ toString timeout_ms ++ "ms"

/-- The loop body: the source matches the probe result with a guard —
`Ok(resp) if resp.status().is_success()` returns success, while the plain
`Ok(resp)` and `Err(_)` arms both merely log and fall through to the
`sleep(interval)` after the match. `probeSucceeds` is exactly that guard,
so the loop continues (sleeping the fixed interval) whenever it is
false. -/
def poll_health (interval_ms timeout_ms : Nat) (elapsed : Nat → Nat)
    (probe : Nat → ProbeResult) : Nat → Nat → Option (Except String Unit × List Nat)
  | _, 0 => none
  | k, fuel + 1 =>
    if elapsed k > timeout_ms then some (.error (timeoutMsg timeout_ms), [])
    else if probeSucceeds (probe k) then some (.ok (), [])
    else
      match poll_health interval_ms timeout_ms elapsed probe (k + 1) fuel with
      | none => none
      | some (r, sleeps) => some (r, interval_ms :: sleeps)

/-! ### Reading the last log lines (`sidecar.rs`, `read_last_log_lines`) -/

/-- The ways `fs::read_to_string` can fail: the file does not exist, is
not readable, is not valid UTF-8, or any other IO error. The source
applies `unwrap_or_default()` to the result, collapsing every error to the
empty string. -/
inductive IoError
  | notFound | permissionDenied | invalidData | other

def readToString : Except IoError String → String
  | .ok s => s
  | .error _ => ""

/-- Rust `str::lines()`: split at `\n`; every piece that was terminated by
a `\n` has one trailing `\r` stripped; a final unterminated piece is kept
as is, and a trailing newline produces no final empty line. -/
def rustLines (s : String) : List String :=
  if s = "" then []
  else
    let parts := s.splitOn "\n"
    parts.dropLast.map (fun p => if p.endsWith "\r" then p.dropRight 1 else p) ++
      (if s.endsWith "\n" then [] else [parts.getLastD ""])

/-- `SidecarManager::read_last_log_lines`: read the log file (any error
becomes the empty string), split into lines, reverse, take `n`, reverse
back (the final `map(to_string)` is the identity here). -/
def read_last_log_lines (fileRead : Except IoError String) (n : Nat) : List String :=
  ((rustLines (readToString fileRead)).reverse.take n).reverse

/-! ### Lemmas about the escaper -/

theorem replaceChar_append (c : Char) (r a b : List Char) :
    replaceChar c r (a ++ b) = replaceChar c r a ++ replaceChar c r b := by
  induction a with
  | nil => rfl
  | cons x xs ih =>
    by_cases h : x = c <;> simp [replaceChar, h, ih]

theorem htmlEscapeL_cons (x : Char) (xs : List Char) :
    htmlEscapeL (x :: xs) = escChar x ++ htmlEscapeL xs := by
  have hsplit : replaceChar '&' "&amp;".toList (x :: xs) =
      (if x = '&' then "&amp;".toList else [x]) ++
        replaceChar '&' "&amp;".toList xs := by
    by_cases h : x = '&' <;> simp [replaceChar, h]
  unfold htmlEscapeL
  rw [hsplit, replaceChar_append, replaceChar_append, replaceChar_append]
  by_cases h1 : x = '&'
  · subst h1; simp [escChar, htmlEscapeL]; rfl
  · by_cases h2 : x = '<'
    · subst h2; simp [escChar, htmlEscapeL, replaceChar]
    · by_cases h3 : x = '>'
      · subst h3; simp [escChar, htmlEscapeL, replaceChar]
      · by_cases h4 : x = '\"'
        · subst h4; simp [escChar, htmlEscapeL, replaceChar]
        · simp [escChar, htmlEscapeL, replaceChar, h1, h2, h3, h4]

theorem htmlEscapeL_eq_flatMap (l : List Char) :
    htmlEscapeL l = l.flatMap escChar := by
  induction l with
  | nil => rfl
  | cons x xs ih => rw [htmlEscapeL_cons, ih]; rfl

theorem htmlEscapeL_append (a b : List Char) :
    htmlEscapeL (a ++ b) = htmlEscapeL a ++ htmlEscapeL b := by
  simp [htmlEscapeL_eq_flatMap]

theorem not_lt_mem_escChar (c x : Char) (hx : x ∈ escChar c) :
    x ≠ '<' ∧ x ≠ '>' ∧ x ≠ '\"' := by
  unfold escChar at hx
  by_cases h1 : c = '&'
  · simp [h1] at hx; rcases hx with h | h | h | h | h <;> simp [h]
  · by_cases h2 : c = '<'
    · simp [h1, h2] at hx; rcases hx with h | h | h | h <;> simp [h]
    · by_cases h3 : c = '>'
      · simp [h1, h2, h3] at hx; rcases hx with h | h | h | h <;> simp [h]
      · by_cases h4 : c = '\"'
        · simp [h1, h2, h3, h4] at hx
          rcases hx with h | h | h | h | h | h <;> simp [h]
        · simp [h1, h2, h3, h4] at hx
          subst hx; exact ⟨h2, h3, h4⟩

theorem ampEscaped_cons_of_ne (c : Char) (t : List Char) (hc : c ≠ '&') :
    ampEscaped (c :: t) = ampEscaped t := by
  simp [ampEscaped, hc]

theorem ampEscaped_escChar_append (c : Char) (t : List Char)
    (ht : ampEscaped t = true) : ampEscaped (escChar c ++ t) = true := by
  unfold escChar
  by_cases h1 : c = '&'
  · simp only [h1, if_pos rfl]
    show ampEscaped ('&' :: 'a' :: 'm' :: 'p' :: ';' :: t) = true
    simp [ampEscaped, startsWithL, ht]
  · by_cases h2 : c = '<'
    · simp only [h1, if_neg h1, h2, if_pos rfl]
      show ampEscaped ('&' :: 'l' :: 't' :: ';' :: t) = true
      simp [ampEscaped, startsWithL, ht]
    · by_cases h3 : c = '>'
      · simp only [h1, if_neg h1, h2, if_neg h2, h3, if_pos rfl]
        show ampEscaped ('&' :: 'g' :: 't' :: ';' :: t) = true
        simp [ampEscaped, startsWithL, ht]
      · by_cases h4 : c = '\"'
        · simp only [h1, if_neg h1, h2, if_neg h2, h3, if_neg h3, h4, if_pos rfl]
          show ampEscaped ('&' :: 'q' :: 'u' :: 'o' :: 't' :: ';' :: t) = true
          simp [ampEscaped, startsWithL, ht]
        · simp only [h1, if_neg h1, h2, if_neg h2, h3, if_neg h3, h4, if_neg h4]
          show ampEscaped (c :: t) = true
          rw [ampEscaped_cons_of_ne c t h1]
          exact ht

theorem ampEscaped_flatMap (l : List Char) (r : List Char)
    (hr : ampEscaped r = true) : ampEscaped (l.flatMap escChar ++ r) = true := by
  induction l with
  | nil => simpa using hr
  | cons x xs ih =>
    have : (x :: xs).flatMap escChar ++ r = escChar x ++ (xs.flatMap escChar ++ r) := by
      simp
    rw [this]
    exact ampEscaped_escChar_append x _ ih

theorem noUnescaped_html_escape (s : String) : NoUnescaped (html_escape s) := by
  have hdata : (html_escape s).toList = s.toList.flatMap escChar := by
    show htmlEscapeL s.toList = _
    exact htmlEscapeL_eq_flatMap s.toList
  refine ⟨?_, ?_, ?_, ?_⟩
  · rw [hdata]
    intro hmem
    rcases List.mem_flatMap.mp hmem with ⟨c, _, hc⟩
    exact (not_lt_mem_escChar c _ hc).1 rfl
  · rw [hdata]
    intro hmem
    rcases List.mem_flatMap.mp hmem with ⟨c, _, hc⟩
    exact (not_lt_mem_escChar c _ hc).2.1 rfl
  · rw [hdata]
    intro hmem
    rcases List.mem_flatMap.mp hmem with ⟨c, _, hc⟩
    exact (not_lt_mem_escChar c _ hc).2.2 rfl
  · rw [hdata]
    have := ampEscaped_flatMap s.toList [] rfl
    simpa using this

theorem startsWithL_append_self (p b : List Char) :
    startsWithL p (p ++ b) = true := by
  induction p with
  | nil => rfl
  | cons x xs ih => simp [startsWithL, ih]

theorem containsSeq_of_startsWith (p l : List Char)
    (h : startsWithL p l = true) : containsSeq p l = true := by
  cases l with
  | nil => simpa [containsSeq] using h
  | cons x xs => simp [containsSeq, h]

theorem containsSeq_append_right (p x y : List Char)
    (h : containsSeq p y = true) : containsSeq p (x ++ y) = true := by
  induction x with
  | nil => simpa using h
  | cons a as ih => simp [containsSeq, ih]

theorem containsSeq_mid (a p b : List Char) :
    containsSeq p (a ++ (p ++ b)) = true :=
  containsSeq_append_right p a _
    (containsSeq_of_startsWith p _ (startsWithL_append_self p b))

theorem toList_append (a b : String) : (a ++ b).toList = a.toList ++ b.toList :=
  String.data_append a b

theorem html_escape_append (a b : String) :
    html_escape (a ++ b) = html_escape a ++ html_escape b := by
  show String.mk (htmlEscapeL (a ++ b).toList) = _
  rw [toList_append, htmlEscapeL_append]
  rfl

theorem join_map_html_escape (logs : List String) :
    joinLines (logs.map html_escape) = html_escape (joinLines logs) := by
  induction logs with
  | nil => rfl
  | cons l ls ih =>
    cases ls with
    | nil => rfl
    | cons l2 ls2 =>
      show html_escape l ++ "\n" ++ joinLines ((l2 :: ls2).map html_escape) =
        html_escape (l ++ "\n" ++ joinLines (l2 :: ls2))
      rw [ih, html_escape_append, html_escape_append]
      rfl

theorem noUnescaped_placeholder : NoUnescaped noLogPlaceholder := by
  refine ⟨?_, ?_, ?_, ?_⟩ <;> decide

theorem noUnescaped_logBoxContent (logs : List String) :
    NoUnescaped (logBoxContent logs) := by
  unfold logBoxContent
  by_cases h : (joinLines (logs.map html_escape)).isEmpty
  · simp only [h, if_pos]
    exact noUnescaped_placeholder
  · simp only [h, if_neg, Bool.false_eq_true, not_false_eq_true]
    rw [join_map_html_escape]
    exact noUnescaped_html_escape (joinLines logs)

theorem generate_error_html_toList (m : String) (logs : List String) :
    (generate_error_html m logs).toList =
      errorPagePre.toList ++ ((html_escape m).toList ++ (errorPageMid.toList ++
        ((logBoxContent logs).toList ++ errorPagePost.toList))) := by
  unfold generate_error_html
  simp [toList_append]

theorem restartControl_in_post :
    containsSeq restartControl.toList errorPagePost.toList = true := by
  decide

/-- C4 (amended): for every message and every list of log lines, the four
metacharacters of the inputs are escaped: the escaped message and the log
box content contain no `<`, `>`, `"`, and every `&` starts an entity; the
document is the fixed template around those two escaped components, the log
lines are joined with newlines, the fixed placeholder is substituted when
the log list is empty, the document embeds the control invoking
`restart_backend`, and the spec's concrete example produces the expected
escaped substrings. -/
theorem claim_C4 : ∀ (message : String) (log_lines : List String),
    NoUnescaped (html_escape message)
    ∧ NoUnescaped (logBoxContent log_lines)
    ∧ generate_error_html message log_lines =
        errorPagePre ++ html_escape message ++ errorPageMid ++
          logBoxContent log_lines ++ errorPagePost
    ∧ logBoxContent log_lines =
        (if (joinLines (log_lines.map html_escape)).isEmpty then noLogPlaceholder
         else joinLines (log_lines.map html_escape))
    ∧ logBoxContent [] = noLogPlaceholder
    ∧ containsSeq restartControl.toList (generate_error_html message log_lines).toList = true
    ∧ containsSeq "&lt;script&gt;bad&lt;/script&gt;".toList
        (generate_error_html "<script>bad</script>" ["a & b", "<tag>"]).toList = true
    ∧ containsSeq "a &amp; b\n&lt;tag&gt;".toList
        (generate_error_html "<script>bad</script>" ["a & b", "<tag>"]).toList = true := by
  intro message log_lines
  refine ⟨noUnescaped_html_escape message, noUnescaped_logBoxContent log_lines,
    rfl, rfl, rfl, ?_, ?_, ?_⟩
  · rw [generate_error_html_toList]
    refine containsSeq_append_right _ _ _ ?_
    refine containsSeq_append_right _ _ _ ?_
    refine containsSeq_append_right _ _ _ ?_
    refine containsSeq_append_right _ _ _ ?_
    have hpost : errorPagePost.toList =
        "</div>\n    <button onclick=\"".toList ++
          (restartControl.toList ++ "\">\n      Retry\n    </button>\n  </div>\n</body>\n</html>".toList) := by
      decide
    rw [hpost]
    exact containsSeq_mid _ _ _
  · rw [generate_error_html_toList]
    have hmsg : (html_escape "<script>bad</script>").toList =
        "&lt;script&gt;bad&lt;/script&gt;".toList := by decide
    rw [hmsg]
    exact containsSeq_mid _ _ _
  · rw [generate_error_html_toList]
    have hlog : (logBoxContent ["a & b", "<tag>"]).toList =
        "a &amp; b\n&lt;tag&gt;".toList := by decide
    refine containsSeq_append_right _ _ _ ?_
    refine containsSeq_append_right _ _ _ ?_
    refine containsSeq_append_right _ _ _ ?_
    rw [hlog]
    exact containsSeq_of_startsWith _ _ (startsWithL_append_self _ _)

/-- C4 counterexample: the claim speaks of escaping all five HTML
metacharacters, but the code escapes only four — the apostrophe (the fifth
metacharacter) passes through `html_escape` unchanged and reaches the
generated document unescaped. -/
theorem claim_C4_counterexample :
    html_escape "\x27" = "\x27"
    ∧ '\x27' ∈ (generate_error_html "\x27" []).toList := by
  constructor
  · rfl
  · rw [generate_error_html_toList]
    have h : '\x27' ∈ (html_escape "\x27").toList := by decide
    simp only [List.mem_append]
    exact Or.inr (Or.inl h)

/-- C4 witness: the amended theorem applied at a concrete message and log
list. -/
theorem claim_C4_witness :
    generate_error_html "m" ["x"] =
      errorPagePre ++ html_escape "m" ++ errorPageMid ++
        logBoxContent ["x"] ++ errorPagePost :=
  (claim_C4 "m" ["x"]).2.2.1

/-- C9: the placeholder is substituted exactly when the newline-join of the
escaped log lines is the empty string, so the non-empty log list `[""]`
(whose join is empty) also yields the placeholder, just like the empty
list. -/
theorem claim_C9 :
    (∀ (m : String) (logs : List String),
      joinLines (logs.map html_escape) = "" →
        generate_error_html m logs = generate_error_html m [])
    ∧ joinLines (([""] : List String).map html_escape) = ""
    ∧ generate_error_html "x" [""] = generate_error_html "x" []
    ∧ containsSeq noLogPlaceholder.toList (generate_error_html "x" [""]).toList = true := by
  refine ⟨?_, rfl, ?_, ?_⟩
  · intro m logs h
    unfold generate_error_html logBoxContent
    rw [h]
    rfl
  · rfl
  · rw [generate_error_html_toList]
    have hlog : (logBoxContent ([""] : List String)).toList = noLogPlaceholder.toList := by
      decide
    refine containsSeq_append_right _ _ _ ?_
    refine containsSeq_append_right _ _ _ ?_
    refine containsSeq_append_right _ _ _ ?_
    rw [hlog]
    exact containsSeq_of_startsWith _ _ (startsWithL_append_self _ _)

/-- C9 witness: the general placeholder-substitution theorem applied at the
concrete log list `[""]`. -/
theorem claim_C9_witness :
    generate_error_html "x" [""] = generate_error_html "x" [] :=
  claim_C9.1 "x" [""] rfl

/-! ### Claims about the supervisor -/

/-- C1: with `max_retries = 3` and a spawn operation failing on every
call, `spawn_with_retry` calls spawn exactly 3 times and returns an error
embedding the literal attempt count `3` and the last underlying spawn
error message. -/
theorem claim_C1 : ∀ errf : Nat → String,
    (spawn_with_retry (fun i => .error (errf i)) 3 0).result =
      .error ("Backend failed to start after 3 attempts: " ++ errf 2)
    ∧ spawnCalls (spawn_with_retry (fun i => .error (errf i)) 3 0).events = 3 := by
  intro errf
  have h2 : spawn_with_retry (fun i => .error (errf i)) 3 2 =
      ⟨.error ("Backend failed to start after " ++ toString 3 ++
        " attempts: " ++ errf 2), [Ev.spawnCall]⟩ := by
    rw [spawn_with_retry]
    rfl
  have h1 : spawn_with_retry (fun i => .error (errf i)) 3 1 =
      ⟨.error ("Backend failed to start after " ++ toString 3 ++
        " attempts: " ++ errf 2),
        [Ev.spawnCall, Ev.sleepMs (1000 * ((1 <<< 1) % 2 ^ 64)), Ev.spawnCall]⟩ := by
    rw [spawn_with_retry, h2]
    rfl
  have h0 : spawn_with_retry (fun i => .error (errf i)) 3 0 =
      ⟨.error ("Backend failed to start after " ++ toString 3 ++
        " attempts: " ++ errf 2),
        [Ev.spawnCall, Ev.sleepMs (1000 * ((1 <<< 0) % 2 ^ 64)), Ev.spawnCall,
          Ev.sleepMs (1000 * ((1 <<< 1) % 2 ^ 64)), Ev.spawnCall]⟩ := by
    rw [spawn_with_retry, h1]
    rfl
  rw [h0]
  exact ⟨rfl, rfl⟩

/-- C3: `shutdown` is idempotent: with no stored process it is a no-op;
on every exit path (including the `Err` path of `try_wait`) the slot is
`None` afterwards; and a second call with no process started in between is
again a no-op that performs no kill. -/
theorem claim_C3 : ∀ (slot : Option ChildBeh) (fuel fuel2 : Nat),
    (shutdown slot fuel).1 = none
    ∧ shutdown (none : Option ChildBeh) fuel =
        (none, [Ev.lockChild, Ev.takeSlot, Ev.unlockChild])
    ∧ killCount (shutdown (none : Option ChildBeh) fuel).2 = 0
    ∧ shutdown (shutdown slot fuel).1 fuel2 =
        (none, [Ev.lockChild, Ev.takeSlot, Ev.unlockChild])
    ∧ killCount (shutdown (shutdown slot fuel).1 fuel2).2 = 0 := by
  intro slot fuel fuel2
  have h1 : (shutdown slot fuel).1 = none := by
    cases slot <;> rfl
  refine ⟨h1, rfl, rfl, ?_, ?_⟩ <;> rw [h1] <;> rfl

/-- C5: invoking the restart operation while no manager is tracked fails
immediately with the no-manager error, performing no spawn attempt (and no
kill). -/
theorem claim_C5 : ∀ (healthResult : Except String Unit) (shutFuel : Nat),
    restart_backend none healthResult shutFuel =
      (.error "No sidecar manager available",
        [Ev.lockApp, Ev.readSlot, Ev.unlockApp, Ev.lockApp, Ev.readSlot, Ev.unlockApp])
    ∧ spawnCalls (restart_backend none healthResult shutFuel).2 = 0
    ∧ killCount (restart_backend none healthResult shutFuel).2 = 0 := by
  intro healthResult shutFuel
  exact ⟨rfl, rfl, rfl⟩

/-- C6: with the always-failing spawn and the source's `max_retries = 3`,
the trace interleaves spawn calls and backoff sleeps as
spawn, sleep `2 ^ 0` s, spawn, sleep `2 ^ 1` s, spawn — the sleep after
the `k`-th failed attempt lasts `2 ^ (k - 1)` seconds, computed exactly,
and no sleep follows the final failed attempt (`max_retries - 1` sleeps in
total). -/
theorem claim_C6 : ∀ errf : Nat → String,
    (spawn_with_retry (fun i => .error (errf i)) 3 0).events =
      [Ev.spawnCall, Ev.sleepMs (1000 * 2 ^ 0), Ev.spawnCall,
        Ev.sleepMs (1000 * 2 ^ 1), Ev.spawnCall]
    ∧ sleepsOf (spawn_with_retry (fun i => .error (errf i)) 3 0).events =
        [1000 * 2 ^ 0, 1000 * 2 ^ 1]
    ∧ (sleepsOf (spawn_with_retry (fun i => .error (errf i)) 3 0).events).length = 3 - 1 := by
  intro errf
  have h2 : spawn_with_retry (fun i => .error (errf i)) 3 2 =
      ⟨.error ("Backend failed to start after " ++ toString 3 ++
        " attempts: " ++ errf 2), [Ev.spawnCall]⟩ := by
    rw [spawn_with_retry]
    rfl
  have h1 : (spawn_with_retry (fun i => .error (errf i)) 3 1).events =
      [Ev.spawnCall, Ev.sleepMs (1000 * ((1 <<< 1) % 2 ^ 64)), Ev.spawnCall] := by
    rw [spawn_with_retry, h2]
    rfl
  have h0 : (spawn_with_retry (fun i => .error (errf i)) 3 0).events =
      [Ev.spawnCall, Ev.sleepMs (1000 * ((1 <<< 0) % 2 ^ 64)), Ev.spawnCall,
        Ev.sleepMs (1000 * ((1 <<< 1) % 2 ^ 64)), Ev.spawnCall] := by
    rw [spawn_with_retry]
    simp only [h1]
    rfl
  rw [h0]
  exact ⟨rfl, rfl, rfl⟩

/-! ### Lock-discipline lemmas (claim C8) -/

theorem accessUnlockedAux_cons (isLock isUnlock isAccess : Ev → Bool) (e : Ev)
    (t : List Ev) (d : Nat) :
    accessUnlockedAux isLock isUnlock isAccess (e :: t) d =
      ((isAccess e && d == 0) ||
        accessUnlockedAux isLock isUnlock isAccess t
          (cond (isLock e) (d + 1) (cond (isUnlock e) (d - 1) d))) := rfl

theorem accessUnlockedAux_append_transparent (isLock isUnlock isAccess : Ev → Bool)
    (evs rest : List Ev) (d : Nat)
    (h : ∀ e ∈ evs, isLock e = false ∧ isUnlock e = false ∧ isAccess e = false) :
    accessUnlockedAux isLock isUnlock isAccess (evs ++ rest) d =
      accessUnlockedAux isLock isUnlock isAccess rest d := by
  induction evs generalizing d with
  | nil => rfl
  | cons e t ih =>
    have he := h e (by simp)
    rw [List.cons_append, accessUnlockedAux_cons, he.1, he.2.1, he.2.2]
    simp only [Bool.false_and, Bool.false_or, cond_false]
    exact ih d (fun x hmem => h x (by simp [hmem]))

theorem shutdownLoop_mem (beh : ChildBeh) : ∀ (k fuel : Nat), ∀ e ∈ shutdownLoop beh k fuel,
    e = Ev.tryWaitChild ∨ e = Ev.killChild ∨ e = Ev.waitChild ∨ e = Ev.sleepMs 100 := by
  intro k fuel
  induction fuel generalizing k with
  | zero => intro e he; simp [shutdownLoop] at he
  | succ n ih =>
    intro e he
    simp only [shutdownLoop, List.mem_cons] at he
    rcases he with rfl | he
    · exact Or.inl rfl
    · cases htw : beh.tryWaitAt k <;> rw [htw] at he
      · simp at he
      · by_cases hel : beh.elapsedAt k > 5000
        · rw [if_pos hel] at he
          simp at he
          rcases he with rfl | rfl
          · exact Or.inr (Or.inl rfl)
          · exact Or.inr (Or.inr (Or.inl rfl))
        · rw [if_neg hel] at he
          simp only [List.mem_cons] at he
          rcases he with rfl | he
          · exact Or.inr (Or.inr (Or.inr rfl))
          · exact ih (k + 1) e he
      · simp at he

theorem spawn_with_retry_events_mem (spawnAt : Nat → Except String Unit)
    (maxRetries : Nat) : ∀ (attempts : Nat),
    ∀ e ∈ (spawn_with_retry spawnAt maxRetries attempts).events,
      e = Ev.spawnCall ∨ e = Ev.lockChild ∨ e = Ev.storeSlot ∨ e = Ev.unlockChild ∨
        ∃ d, e = Ev.sleepMs d := by
  intro attempts
  induction attempts using spawn_with_retry.induct spawnAt maxRetries with
  | case1 a h =>
    intro e he
    rw [spawn_with_retry] at he
    rw [h] at he
    simp at he
    rcases he with rfl | rfl | rfl | rfl
    · exact Or.inl rfl
    · exact Or.inr (Or.inl rfl)
    · exact Or.inr (Or.inr (Or.inl rfl))
    · exact Or.inr (Or.inr (Or.inr (Or.inl rfl)))
  | case2 a x h hc =>
    intro e he
    rw [spawn_with_retry] at he
    rw [h] at he
    simp only [ge_iff_le, dif_pos hc] at he
    simp at he
    subst he
    exact Or.inl rfl
  | case3 a x h hc ih =>
    intro e he
    rw [spawn_with_retry] at he
    rw [h] at he
    simp only [ge_iff_le, dif_neg hc] at he
    simp only [List.mem_cons] at he
    rcases he with rfl | rfl | he
    · exact Or.inl rfl
    · exact Or.inr (Or.inr (Or.inr (Or.inr ⟨_, rfl⟩)))
    · exact ih e he

theorem childAccess_shutdown (slot : Option ChildBeh) (fuel : Nat) :
    childAccessUnlocked (shutdown slot fuel).2 = false := by
  cases slot with
  | none => rfl
  | some beh =>
    have h1 : childAccessUnlocked (shutdown (some beh) fuel).2 =
        accessUnlockedAux (fun e => decide (e = Ev.lockChild))
          (fun e => decide (e = Ev.unlockChild))
          (fun e => decide (e = Ev.takeSlot) || decide (e = Ev.storeSlot))
          (shutdownLoop beh 0 fuel ++ [Ev.unlockChild]) 1 := rfl
    rw [h1, accessUnlockedAux_append_transparent]
    · rfl
    · intro e he
      rcases shutdownLoop_mem beh 0 fuel e he with rfl | rfl | rfl | rfl <;>
        exact ⟨rfl, rfl, rfl⟩

theorem restart_backend_some_trace (m : MgrModel) (health : Except String Unit)
    (shutFuel : Nat) :
    (restart_backend (some m) health shutFuel).2 =
      Ev.lockApp :: Ev.readSlot :: ((shutdown m.childSlot shutFuel).2 ++ [Ev.unlockApp]) ++
        (Ev.lockApp :: Ev.readSlot ::
          ((spawn_with_retry m.spawnAt m.maxRetries 0).events ++ [Ev.unlockApp])) := by
  show (match (spawn_with_retry m.spawnAt m.maxRetries 0).result with
    | Except.error e =>
      ((Except.error e : Except String String),
        Ev.lockApp :: Ev.readSlot :: ((shutdown m.childSlot shutFuel).2 ++ [Ev.unlockApp]) ++
          (Ev.lockApp :: Ev.readSlot ::
            ((spawn_with_retry m.spawnAt m.maxRetries 0).events ++ [Ev.unlockApp])))
    | Except.ok _ =>
      match health with
      | Except.error e =>
        ((Except.error e : Except String String),
          Ev.lockApp :: Ev.readSlot :: ((shutdown m.childSlot shutFuel).2 ++ [Ev.unlockApp]) ++
            (Ev.lockApp :: Ev.readSlot ::
              ((spawn_with_retry m.spawnAt m.maxRetries 0).events ++ [Ev.unlockApp])))
      | Except.ok _ =>
        ((Except.ok "Backend restarted" : Except String String),
          Ev.lockApp :: Ev.readSlot :: ((shutdown m.childSlot shutFuel).2 ++ [Ev.unlockApp]) ++
            (Ev.lockApp :: Ev.readSlot ::
              ((spawn_with_retry m.spawnAt m.maxRetries 0).events ++ [Ev.unlockApp])))).2 = _
  cases (spawn_with_retry m.spawnAt m.maxRetries 0).result with
  | error e => rfl
  | ok u =>
    cases health with
    | error e2 => rfl
    | ok u2 => rfl

theorem appAccess_restart (slot : Option MgrModel) (health : Except String Unit)
    (shutFuel : Nat) :
    appAccessUnlocked (restart_backend slot health shutFuel).2 = false := by
  cases slot with
  | none => rfl
  | some m =>
    rw [appAccessUnlocked, restart_backend_some_trace]
    have h1 : accessUnlockedAux (fun e => decide (e = Ev.lockApp))
        (fun e => decide (e = Ev.unlockApp)) (fun e => decide (e = Ev.readSlot))
        (Ev.lockApp :: Ev.readSlot ::
          ((shutdown m.childSlot shutFuel).2 ++ [Ev.unlockApp]) ++
          (Ev.lockApp :: Ev.readSlot ::
            ((spawn_with_retry m.spawnAt m.maxRetries 0).events ++ [Ev.unlockApp]))) 0 =
      accessUnlockedAux (fun e => decide (e = Ev.lockApp))
        (fun e => decide (e = Ev.unlockApp)) (fun e => decide (e = Ev.readSlot))
        ((shutdown m.childSlot shutFuel).2 ++
          ([Ev.unlockApp] ++
            (Ev.lockApp :: Ev.readSlot ::
              ((spawn_with_retry m.spawnAt m.maxRetries 0).events ++ [Ev.unlockApp])))) 1 := by
      rw [List.cons_append, List.cons_append, List.append_assoc]
      rfl
    rw [h1, accessUnlockedAux_append_transparent]
    · have h2 : accessUnlockedAux (fun e => decide (e = Ev.lockApp))
          (fun e => decide (e = Ev.unlockApp)) (fun e => decide (e = Ev.readSlot))
          ([Ev.unlockApp] ++
            (Ev.lockApp :: Ev.readSlot ::
              ((spawn_with_retry m.spawnAt m.maxRetries 0).events ++ [Ev.unlockApp]))) 1 =
        accessUnlockedAux (fun e => decide (e = Ev.lockApp))
          (fun e => decide (e = Ev.unlockApp)) (fun e => decide (e = Ev.readSlot))
          ((spawn_with_retry m.spawnAt m.maxRetries 0).events ++ [Ev.unlockApp]) 1 := rfl
      rw [h2, accessUnlockedAux_append_transparent]
      · rfl
      · intro e he
        rcases spawn_with_retry_events_mem m.spawnAt m.maxRetries 0 e he with
          rfl | rfl | rfl | rfl | ⟨d, rfl⟩ <;> exact ⟨rfl, rfl, rfl⟩
    · intro e he
      cases hcs : m.childSlot with
      | none =>
        rw [hcs] at he
        simp only [shutdown] at he
        simp at he
        rcases he with rfl | rfl | rfl <;> exact ⟨rfl, rfl, rfl⟩
      | some beh =>
        rw [hcs] at he
        simp only [shutdown, List.mem_cons] at he
        rcases he with rfl | rfl | rfl | he
        · exact ⟨rfl, rfl, rfl⟩
        · exact ⟨rfl, rfl, rfl⟩
        · exact ⟨rfl, rfl, rfl⟩
        · rcases List.mem_append.mp he with he2 | he2
          · rcases shutdownLoop_mem beh 0 shutFuel e he2 with rfl | rfl | rfl | rfl <;>
              exact ⟨rfl, rfl, rfl⟩
          · simp at he2
            subst he2
            exact ⟨rfl, rfl, rfl⟩

/-- C8 counterexample: with a stored child whose first `try_wait` reports
it still running (deadline not yet reached), `shutdown` sleeps its 100 ms
polling sleep while still holding the child-slot lock — the lock is not
released across the blocking wait, contradicting the claim. -/
theorem claim_C8_counterexample :
    sleepWhileChildLocked
      (shutdown (some ⟨fun k => if k = 0 then TryWaitResult.running else TryWaitResult.exited,
        fun _ => 0⟩) 2).2 = true := rfl

/-- C8 (amended): accesses to the child slot and to the manager slot do
happen with the corresponding mutual-exclusion lock held (serialisation
holds), but the locks are held across blocking waits: `shutdown` keeps the
child-slot lock across its 100 ms exit-polling sleeps, and
`restart_backend` keeps the manager-slot lock across `spawn_with_retry`'s
backoff sleeps. -/
theorem claim_C8 :
    (∀ (slot : Option ChildBeh) (fuel : Nat),
      childAccessUnlocked (shutdown slot fuel).2 = false)
    ∧ (∀ (slot : Option MgrModel) (health : Except String Unit) (fuel : Nat),
      appAccessUnlocked (restart_backend slot health fuel).2 = false)
    ∧ (∀ (beh : ChildBeh) (fuel : Nat), 1 ≤ fuel →
      beh.tryWaitAt 0 = TryWaitResult.running → beh.elapsedAt 0 ≤ 5000 →
      sleepWhileChildLocked (shutdown (some beh) fuel).2 = true)
    ∧ sleepWhileAppLocked
        (restart_backend (some ⟨none, fun _ => .error "boom", 3⟩) (.ok ()) 1).2 = true := by
  refine ⟨childAccess_shutdown, appAccess_restart, ?_, ?_⟩
  · intro beh fuel hf htw hel
    obtain ⟨f, rfl⟩ : ∃ f, fuel = f + 1 := ⟨fuel - 1, by omega⟩
    show sleepWhileChildLocked
      (Ev.lockChild :: Ev.takeSlot :: Ev.killChild ::
        (shutdownLoop beh 0 (f + 1) ++ [Ev.unlockChild])) = true
    rw [shutdownLoop, htw, if_neg (by omega)]
    rfl
  · have h2 : spawn_with_retry (fun _ => Except.error "boom") 3 2 =
        ⟨.error ("Backend failed to start after " ++ toString 3 ++ " attempts: boom"),
          [Ev.spawnCall]⟩ := by
      rw [spawn_with_retry]
      rfl
    have h1 : spawn_with_retry (fun _ => Except.error "boom") 3 1 =
        ⟨.error ("Backend failed to start after " ++ toString 3 ++ " attempts: boom"),
          [Ev.spawnCall, Ev.sleepMs (1000 * ((1 <<< 1) % 2 ^ 64)), Ev.spawnCall]⟩ := by
      rw [spawn_with_retry, h2]
      rfl
    have h0 : spawn_with_retry (fun _ => Except.error "boom") 3 0 =
        ⟨.error ("Backend failed to start after " ++ toString 3 ++ " attempts: boom"),
          [Ev.spawnCall, Ev.sleepMs (1000 * ((1 <<< 0) % 2 ^ 64)), Ev.spawnCall,
            Ev.sleepMs (1000 * ((1 <<< 1) % 2 ^ 64)), Ev.spawnCall]⟩ := by
      rw [spawn_with_retry, h1]
      rfl
    rw [sleepWhileAppLocked, restart_backend_some_trace]
    show sleepWhileLockedAux _ _
      (Ev.lockApp :: Ev.readSlot :: (((shutdown
        (MgrModel.mk none (fun _ => Except.error "boom") 3).childSlot 1).2 ++ [Ev.unlockApp]) ++
        (Ev.lockApp :: Ev.readSlot ::
          ((spawn_with_retry (fun _ => Except.error "boom") 3 0).events ++ [Ev.unlockApp])))) 0 = true
    rw [h0]
    rfl

/-- C8 witness: the amended theorem's sleep-under-child-lock part applied
to a child that is still running at the first poll. -/
theorem claim_C8_witness :
    sleepWhileChildLocked
      (shutdown (some ⟨fun _ => TryWaitResult.running, fun _ => 100⟩) 1).2 = true :=
  claim_C8.2.2.1 ⟨fun _ => TryWaitResult.running, fun _ => 100⟩ 1 (by omega) rfl (by decide)

/-! ### Health poller and log-tail claims -/

theorem poll_health_congr (interval_ms timeout_ms : Nat) (elapsed : Nat → Nat)
    (p q : Nat → ProbeResult) (h : ∀ j, probeSucceeds (p j) = probeSucceeds (q j)) :
    ∀ (fuel k : Nat), poll_health interval_ms timeout_ms elapsed p k fuel =
      poll_health interval_ms timeout_ms elapsed q k fuel := by
  intro fuel
  induction fuel with
  | zero => intro k; rfl
  | succ f ih =>
    intro k
    simp only [poll_health, h k, ih (k + 1)]

theorem poll_health_run (interval_ms timeout_ms : Nat) (elapsed : Nat → Nat)
    (probe : Nat → ProbeResult) : ∀ (m fuel k : Nat),
    (∀ j, j < m → elapsed (k + j) ≤ timeout_ms ∧ probeSucceeds (probe (k + j)) = false) →
    m < fuel →
    (probeSucceeds (probe (k + m)) = true → elapsed (k + m) ≤ timeout_ms →
      poll_health interval_ms timeout_ms elapsed probe k fuel =
        some (.ok (), List.replicate m interval_ms))
    ∧ (elapsed (k + m) > timeout_ms →
      poll_health interval_ms timeout_ms elapsed probe k fuel =
        some (.error (timeoutMsg timeout_ms), List.replicate m interval_ms)) := by
  intro m
  induction m with
  | zero =>
    intro fuel k _ hfuel
    obtain ⟨f, rfl⟩ : ∃ f, fuel = f + 1 := ⟨fuel - 1, by omega⟩
    constructor
    · intro hsucc hel
      simp only [Nat.add_zero] at hsucc hel
      simp [poll_health, Nat.not_lt.mpr hel, hsucc]
    · intro hel
      simp only [Nat.add_zero] at hel
      simp [poll_health, hel]
  | succ mm ih =>
    intro fuel k h hfuel
    obtain ⟨f, rfl⟩ : ∃ f, fuel = f + 1 := ⟨fuel - 1, by omega⟩
    have h0 := h 0 (by omega)
    simp only [Nat.add_zero] at h0
    have hshift : ∀ j, j < mm →
        elapsed (k + 1 + j) ≤ timeout_ms ∧ probeSucceeds (probe (k + 1 + j)) = false := by
      intro j hj
      have hh := h (j + 1) (by omega)
      have harith : k + (j + 1) = k + 1 + j := by omega
      rw [harith] at hh
      exact hh
    have hrec := ih f (k + 1) hshift (by omega)
    have harith2 : k + (mm + 1) = k + 1 + mm := by omega
    constructor
    · intro hsucc hel
      rw [harith2] at hsucc hel
      have hc := hrec.1 hsucc hel
      simp only [poll_health, if_neg (Nat.not_lt.mpr h0.1), h0.2,
        Bool.false_eq_true, if_false, hc]
      rfl
    · intro hel
      rw [harith2] at hel
      have hc := hrec.2 hel
      simp only [poll_health, if_neg (Nat.not_lt.mpr h0.1), h0.2,
        Bool.false_eq_true, if_false, hc]
      rfl

/-- C2: while every earlier iteration saw a within-budget clock and a
non-successful probe (any non-2xx status or connection error alike), a 2xx
response at iteration `m` ends the loop with success and a clock past the
budget at iteration `m` ends it with the timeout error naming the budget
`timeout_ms`; in both cases exactly `m` sleeps of the fixed `interval_ms`
were performed (no backoff growth). Moreover any two probe sequences with
the same success classification drive the loop identically — a non-2xx
status and a connection error are treated the same. -/
theorem claim_C2 :
    (∀ (interval_ms timeout_ms : Nat) (elapsed : Nat → Nat)
      (probe : Nat → ProbeResult) (m fuel : Nat),
      (∀ j, j < m → elapsed j ≤ timeout_ms ∧ probeSucceeds (probe j) = false) →
      m < fuel →
      (probeSucceeds (probe m) = true → elapsed m ≤ timeout_ms →
        poll_health interval_ms timeout_ms elapsed probe 0 fuel =
          some (.ok (), List.replicate m interval_ms))
      ∧ (elapsed m > timeout_ms →
        poll_health interval_ms timeout_ms elapsed probe 0 fuel =
          some (.error (timeoutMsg timeout_ms), List.replicate m interval_ms)))
    ∧ (∀ (interval_ms timeout_ms : Nat) (elapsed : Nat → Nat)
      (p q : Nat → ProbeResult) (fuel k : Nat),
      (∀ j, probeSucceeds (p j) = probeSucceeds (q j)) →
      poll_health interval_ms timeout_ms elapsed p k fuel =
        poll_health interval_ms timeout_ms elapsed q k fuel) := by
  constructor
  · intro interval_ms timeout_ms elapsed probe m fuel h hfuel
    have := poll_health_run interval_ms timeout_ms elapsed probe m fuel 0
      (by intro j hj; simpa using h j hj) hfuel
    simpa using this
  · intro interval_ms timeout_ms elapsed p q fuel k h
    exact poll_health_congr interval_ms timeout_ms elapsed p q h fuel k

/-- C2 witness: the poller reaching a 200 response at iteration 2 after
two connection errors, with interval 250 ms and budget 15000 ms, succeeds
after exactly two fixed-interval sleeps. -/
theorem claim_C2_witness :
    poll_health 250 15000 (fun j => 250 * j)
      (fun j => if j < 2 then ProbeResult.connError else ProbeResult.response 200) 0 3 =
      some (.ok (), List.replicate 2 250) := by
  have h := claim_C2.1 250 15000 (fun j => 250 * j)
    (fun j => if j < 2 then ProbeResult.connError else ProbeResult.response 200) 2 3
    (by intro j hj; interval_cases j <;> exact ⟨by decide, rfl⟩) (by decide)
  exact h.1 (by decide) (by decide)

theorem reverse_take_reverse (l : List String) (n : Nat) :
    (l.reverse.take n).reverse = l.drop (l.length - n) := by
  rw [List.take_reverse, List.reverse_reverse]

/-- C7: for every file-read outcome and every `n`, `read_last_log_lines`
returns at most `n` lines, namely the last lines of the file in original
order (the suffix from index `length - n`); a missing or empty log file
yields the empty sequence; and the read is deterministic in the file
content. -/
theorem claim_C7 : ∀ (fileRead : Except IoError String) (n : Nat),
    (read_last_log_lines fileRead n).length ≤ n
    ∧ read_last_log_lines fileRead n =
        (rustLines (readToString fileRead)).drop
          ((rustLines (readToString fileRead)).length - n)
    ∧ (∀ n2 : Nat, read_last_log_lines (.error IoError.notFound) n2 = [])
    ∧ (∀ n2 : Nat, read_last_log_lines (.ok "") n2 = [])
    ∧ read_last_log_lines fileRead n = read_last_log_lines fileRead n := by
  intro fileRead n
  refine ⟨?_, reverse_take_reverse _ n, ?_, ?_, rfl⟩
  · rw [read_last_log_lines, reverse_take_reverse]
    simp only [List.length_drop]
    omega
  · intro n2
    simp [read_last_log_lines, readToString, rustLines]
  · intro n2
    simp [read_last_log_lines, readToString, rustLines]

/-- C10: `read_last_log_lines` absorbs every file-read failure — not only
a missing file but also permission, decoding and other IO errors — and
returns the empty sequence rather than an error. -/
theorem claim_C10 : ∀ (e : IoError) (n : Nat),
    read_last_log_lines (.error e) n = [] := by
  intro e n
  simp [read_last_log_lines, readToString, rustLines]

end LocalAgent
